import Mathlib

/-!
Verification of the F1 Interactive Race Dashboard backend
(`src/Backend/app.py`) against its natural-language specification.

The development shallowly embeds the data-transforming core of the
backend:

* `get_cached_session` — the `@lru_cache(maxsize=200)` memoization of
  session loads (app.py lines 63-70), modelled as explicit state passing
  over a most-recently-used-first association list plus a counter of
  provider invocations;
* `get_session_laps` / `mkLapOut` / `mkResultOut` — the lap/result
  projection of `get_session_data` (lines 194-236), with column presence
  (`'X' in lap.index`) modelled by a schema of Booleans and cell-level
  missingness (`pd.notna`) by `Option`;
* `detectPitStops` — the compound-change walk of `get_pitstops`
  (lines 370-389); Python's three-valued field access is kept: a cell can
  be a string, the pandas missing value NaN (which compares unequal to
  everything, itself included), or Python `None` (returned by
  `Series.get` when the column is absent; `None == None` in Python);
* `get_standings` — the standings aggregation (lines 403-472): schedule
  filtering, per-round accumulation into insertion-ordered maps
  (association lists), Python's stable `sorted(..., reverse=True)`
  (modelled by `List.insertionSort` on the points-descending preorder),
  and 1-based rank assignment;
* `sampleEvery` — the `telemetry.iloc[::10]` stride sampling of
  `get_telemetry` (line 331), generalised over the stride.

Floats in the source (points, lap times) are modelled as rationals; the
claims under study do not involve rounding.
-/

/-! ## Python value model for the pit-stop walk

`get_pitstops` reads `lap.get('Compound')`.  When the `Compound` column
is present the cell is either a string or the pandas missing value NaN;
when the column is absent `Series.get` returns Python `None` (which is
also the initial value of `prev_compound`).  Python comparison:
`NaN != x` is `True` for every `x` including NaN itself, while
`None != None` is `False`. -/

inductive CompoundVal : Type
  /-- Python `None`: `Series.get` on an absent column. -/
  | pynone : CompoundVal
  /-- pandas NaN: the column is present but the cell is missing. -/
  | nan : CompoundVal
  /-- an actual compound string such as `"SOFT"`. -/
  | str (s : String) : CompoundVal
deriving DecidableEq, Repr

/-- Python `!=` on compound cells: NaN is unequal to everything
(itself included), `None` equals `None`, strings compare as strings. -/
def pyNe : CompoundVal → CompoundVal → Bool
  | .str a, .str b => a != b
  | .pynone, .pynone => false
  | .nan, _ => true
  | _, .nan => true
  | .pynone, .str _ => true
  | .str _, .pynone => true

/-- Python `is not None`. -/
def isNotNone : CompoundVal → Bool
  | .pynone => false
  | _ => true

/-- One row of `session.laps` as consumed by the per-driver pit-stop
walk (lines 374-389): `LapNumber` (must be non-null for `int(...)` to
succeed), the `Compound` cell, and the `LapTime` cell — carried along to
record that the walk never reads it. -/
structure DriverLap : Type where
  lapNumber : Nat
  compound : CompoundVal
  lapTime : Option ℚ
deriving DecidableEq, Repr

/-- One element of the `pit_stops` output list (lines 381-387). -/
structure PitStopEvent : Type where
  driver : String
  lap : Nat
  from_compound : CompoundVal
  to_compound : CompoundVal
  /-- always `None` in the source ("FastF1 doesn't always have this"). -/
  pit_duration : Option ℚ
deriving DecidableEq, Repr

/-- `driver_laps.sort_values('LapNumber')` (line 374): sort ascending by
lap number. -/
def sortLaps (laps : List DriverLap) : List DriverLap :=
  List.insertionSort (fun a b => a.lapNumber ≤ b.lapNumber) laps

/-- The `for _, lap in driver_laps.iterrows()` walk of lines 376-389,
threading `prev_compound` (initially Python `None`). -/
def detectWalk (driver : String) : List DriverLap → CompoundVal → List PitStopEvent
  | [], _ => []
  | l :: rest, prev =>
    (if isNotNone prev && pyNe l.compound prev then
      [⟨driver, l.lapNumber, prev, l.compound, none⟩]
    else []) ++ detectWalk driver rest l.compound

/-- Pit-stop detection for one driver's laps: sort by lap number, then
walk tracking the previous compound (lines 374-389). -/
def detectPitStops (driver : String) (laps : List DriverLap) : List PitStopEvent :=
  detectWalk driver (sortLaps laps) .pynone

/-- Modelled from the spec (§4.3 / claim C3 wording): after sorting, a
`PitStopEvent` is emitted exactly for each lap whose compound differs
from the *previous lap's* compound, provided that previous compound is
not Python `None`; the first lap never emits.  Stated over consecutive
pairs of the sorted sequence, to be compared with `detectPitStops`. -/
def pitStopPairs (driver : String) : List DriverLap → List PitStopEvent
  | [] => []
  | [_] => []
  | x :: y :: rest =>
    (if isNotNone x.compound && pyNe y.compound x.compound then
      [⟨driver, y.lapNumber, x.compound, y.compound, none⟩]
    else []) ++ pitStopPairs driver (y :: rest)

/-- Spec-side pit-stop characterization: pairwise emission over the
sorted lap sequence. -/
def pitStopsSpec (driver : String) (laps : List DriverLap) : List PitStopEvent :=
  pitStopPairs driver (sortLaps laps)

/-! ## Telemetry sampling -/

/-- A row of the telemetry trace surfaced by `get_telemetry`
(lines 335-343).  Only its identity matters to the sampling claim. -/
structure TelemetryPoint : Type where
  distance : Option ℚ
  speed : Option ℚ
  throttle : Option ℚ
  brake : Bool
  gear : Option Int
  rpm : Option ℚ
  drs : Int
deriving DecidableEq, Repr

/-- Helper for `sampleEvery`: `k` counts the elements still to skip
before the next kept one; after keeping an element, `s - 1` more are
skipped. -/
def sliceAux (s : Nat) : Nat → List α → List α
  | _, [] => []
  | 0, x :: xs => x :: sliceAux s (s - 1) xs
  | k + 1, _ :: xs => sliceAux s k xs

/-- Python slicing `xs[::s]` for a positive step `s`: every `s`-th
element starting at index 0, in order. -/
def sampleEvery (s : Nat) (l : List α) : List α :=
  sliceAux s 0 l

/-- `sampled = telemetry.iloc[::10]` (line 331): the source fixes the
stride at 10. -/
def get_telemetry_sampled (trace : List TelemetryPoint) : List TelemetryPoint :=
  sampleEvery 10 trace

/-! ## Session cache (`@lru_cache(maxsize=200) get_cached_session`, lines 63-70)

`functools.lru_cache` keeps an insertion/recency-ordered map of at most
`maxsize` entries keyed by the exact argument tuple; a hit refreshes
recency and returns the stored value without calling the function; a
miss calls the function and caches the result only if no exception was
raised.  We model the table as a most-recently-used-first association
list, thread it explicitly, and count provider invocations.  The
provider is a function of the key and of the invocation index, so that
distinct invocations may return different outcomes (a later retry may
succeed). -/

/-- The memoization key: the exact `(year, race_round, session_type)`
triple. -/
structure SessionKey : Type where
  year : Int
  race_round : Int
  session_type : String
deriving DecidableEq, Repr

/-- The typed load failures of the spec's cache contract (§4.1):
the session does not exist, or it exists but cannot be loaded. -/
inductive LoadErr : Type
  | sessionNotFound : LoadErr
  | sessionLoadFailed : LoadErr
deriving DecidableEq, Repr

/-- Cache state: entries most-recently-used first, plus the number of
provider invocations performed so far. -/
structure CacheState (α : Type) : Type where
  entries : List (SessionKey × α)
  calls : Nat
deriving DecidableEq, Repr

/-- Association-list lookup by exact key. -/
def lookupEntry (k : SessionKey) : List (SessionKey × α) → Option α
  | [] => none
  | (k', v) :: es => if k' = k then some v else lookupEntry k es

/-- Remove the entry for `k` (used to refresh recency on a hit). -/
def removeEntry (k : SessionKey) : List (SessionKey × α) → List (SessionKey × α)
  | [] => []
  | (k', v) :: es => if k' = k then es else (k', v) :: removeEntry k es

/-- One call to the memoized `get_cached_session`: on a hit return the
stored record (refreshing recency, no provider call); on a miss invoke
the provider once; cache the result only on success, evicting the
least-recently-used entry when the table already holds 200 keys. -/
def get_cached_session (prov : SessionKey → Nat → Except LoadErr α) (k : SessionKey)
    (s : CacheState α) : Except LoadErr α × CacheState α :=
  match lookupEntry k s.entries with
  | some v => (.ok v, ⟨(k, v) :: removeEntry k s.entries, s.calls⟩)
  | none =>
    match prov k s.calls with
    | .error e => (.error e, ⟨s.entries, s.calls + 1⟩)
    | .ok v =>
      (.ok v, ⟨(k, v) :: (if s.entries.length ≥ 200 then s.entries.dropLast else s.entries),
        s.calls + 1⟩)

/-- `n` sequential calls of the cache getter for the same key, collecting
the returned results and the final state. -/
def runSeq (prov : SessionKey → Nat → Except LoadErr α) (k : SessionKey) :
    Nat → CacheState α → List (Except LoadErr α) × CacheState α
  | 0, s => ([], s)
  | n + 1, s =>
    let r := get_cached_session prov k s
    let rs := runSeq prov k n r.2
    (r.1 :: rs.1, rs.2)

/-! ## Session projection (`get_session_data`, lines 194-236)

Column presence (`'X' in lap.index`, inherited from `laps.columns`
through `laps[available_cols]`) is uniform over the rows of a frame and
is modelled by a schema of Booleans; a present cell that is missing
(`pd.notna` false) is `none`. -/

/-- Which of the needed lap columns exist in the upstream frame. -/
structure LapSchema : Type where
  hasDriver : Bool
  hasLapNumber : Bool
  hasLapTime : Bool
  hasPosition : Bool
  hasCompound : Bool
  hasTeam : Bool
deriving DecidableEq, Repr

/-- One row of `session.laps` restricted to the needed columns; `none`
means the present cell is NaN. -/
structure LapRow : Type where
  driver : Option String
  lapNumber : Option Nat
  lapTime : Option ℚ
  position : Option Nat
  compound : Option String
  team : Option String
deriving DecidableEq, Repr

/-- An upstream lap frame: the schema plus its rows. -/
structure LapFrame : Type where
  schema : LapSchema
  rows : List LapRow
deriving DecidableEq, Repr

/-- One entry of the `laps` output list (lines 206-218).  The `driver`
and `lap_number` keys are always written (possibly with a null value);
the `lap_time`, `position`, `compound` and `team` keys are omitted
(`none`) when their column is absent — and, for `lap_time` and
`position`, also when the cell is null.  `team`'s value itself can be
null (`some none`): the source stores it without a `notna` check. -/
structure LapOut : Type where
  driver : Option String
  lap_number : Option Nat
  lap_time : Option ℚ
  position : Option Nat
  compound : Option String
  team : Option (Option String)
deriving DecidableEq, Repr

/-- Build one output lap entry from a row (lines 206-218). -/
def mkLapOut (sch : LapSchema) (r : LapRow) : LapOut where
  driver := if sch.hasDriver then r.driver else none
  lap_number := if sch.hasLapNumber then r.lapNumber else none
  lap_time := if sch.hasLapTime then r.lapTime else none
  position := if sch.hasPosition then r.position else none
  compound := if sch.hasCompound then some (r.compound.getD "UNKNOWN") else none
  team := if sch.hasTeam then some r.team else none

/-- Lines 199-220: keep the available columns, drop rows with a null
`LapTime` when that column exists, and project each remaining row. -/
def get_session_laps (f : LapFrame) : List LapOut :=
  let kept := if f.schema.hasLapTime then f.rows.filter (fun r => r.lapTime.isSome) else f.rows
  kept.map (mkLapOut f.schema)

/-- The static team-color table (lines 72-85). -/
def TEAM_COLORS : List (String × String) :=
  [("Red Bull Racing", "#3671C6"), ("Ferrari", "#DC2F02"), ("Mercedes", "#27F4D2"),
   ("McLaren", "#FAA307"), ("Aston Martin", "#229971"), ("Alpine", "#FF87BC"),
   ("Williams", "#64C4FF"), ("AlphaTauri", "#5E8FAA"), ("Alfa Romeo", "#9D0208"),
   ("Haas F1 Team", "#B6BABD"), ("RB", "#6692FF"), ("Kick Sauber", "#52E252")]

/-- `TEAM_COLORS.get(team, '#FFFFFF')`; a null (NaN) team name is not a
key of the dict, so it takes the default. -/
def teamColorOf : Option String → String
  | some t => (TEAM_COLORS.lookup t).getD "#FFFFFF"
  | none => "#FFFFFF"

/-- Which of the needed result columns exist in `session.results`. -/
structure ResultSchema : Type where
  hasAbbreviation : Bool
  hasFullName : Bool
  hasTeamName : Bool
  hasPosition : Bool
  hasPoints : Bool
  hasStatus : Bool
deriving DecidableEq, Repr

/-- One row of `session.results`; `none` is a NaN cell. -/
structure ResultRow : Type where
  abbreviation : Option String
  fullName : Option String
  teamName : Option String
  position : Option Nat
  points : Option ℚ
  status : Option String
deriving DecidableEq, Repr

/-- One entry of the `results` output list (lines 228-236).  Every key
is always written; `none` is a null value, not an omitted key. -/
structure ResultOut : Type where
  driver : Option String
  driver_name : Option String
  team : Option String
  team_color : String
  position : Option Nat
  points : ℚ
  status : Option String
deriving DecidableEq, Repr

/-- Build one output result entry from a row (lines 227-236): an absent
`TeamName` column defaults the team to `"Unknown"`, an absent or null
`Points` defaults to `0`, an absent `Status` defaults to `"Unknown"`,
while absent `Abbreviation` / `FullName` / null `Position` become null
values. -/
def mkResultOut (sch : ResultSchema) (r : ResultRow) : ResultOut :=
  let team_name : Option String := if sch.hasTeamName then r.teamName else some "Unknown"
  { driver := if sch.hasAbbreviation then r.abbreviation else none
    driver_name := if sch.hasFullName then r.fullName else none
    team := team_name
    team_color := teamColorOf team_name
    position := if sch.hasPosition then r.position else none
    points := if sch.hasPoints then r.points.getD 0 else 0
    status := if sch.hasStatus then r.status else some "Unknown" }

/-! ## Standings aggregation (`get_standings`, lines 403-479)

The schedule is modelled as a list of `(RoundNumber, EventDate < now)`
pairs in schedule order; the per-round race loader
(`get_cached_session(year, round, 'R')` followed by iterating
`session.results`) is abstracted as a function from the round number to
`Option` of the result rows — `none` covering any exception caught by
the `except` of lines 453-455 (the round is skipped).  Python dicts
preserve insertion order, so the point maps are association lists in
first-encounter order. -/

/-- One result row as read by the standings loop (lines 429-433):
`Abbreviation`, `FullName` and `TeamName` are accessed unconditionally
(a failure there is caught and skips the round), `Points` goes through
`pd.notna`. -/
structure SRes : Type where
  driver : String
  name : String
  team : String
  points : Option ℚ
deriving DecidableEq, Repr

/-- A value of the `driver_points` dict (lines 436-443): the identity
fields are fixed at first encounter, the points accumulate. -/
structure DAcc : Type where
  driver : String
  name : String
  team : String
  team_color : String
  points : ℚ
deriving DecidableEq, Repr

/-- A value of the `team_points` dict (lines 446-451). -/
structure TAcc : Type where
  team : String
  color : String
  points : ℚ
deriving DecidableEq, Repr

/-- Lines 435-443: insert the driver on first encounter (identity fields
from this result, points 0), then add this result's points. -/
def addDriverPoints (acc : List DAcc) (r : SRes) : List DAcc :=
  if acc.any (fun e => e.driver == r.driver) then
    acc.map (fun e =>
      if e.driver == r.driver then { e with points := e.points + r.points.getD 0 } else e)
  else
    acc ++ [⟨r.driver, r.name, r.team, teamColorOf (some r.team), r.points.getD 0⟩]

/-- Lines 445-451: same accumulation keyed by team name. -/
def addTeamPoints (acc : List TAcc) (r : SRes) : List TAcc :=
  if acc.any (fun e => e.team == r.team) then
    acc.map (fun e =>
      if e.team == r.team then { e with points := e.points + r.points.getD 0 } else e)
  else
    acc ++ [⟨r.team, teamColorOf (some r.team), r.points.getD 0⟩]

/-- The `for _, result in results.iterrows()` body applied to one
round's results. -/
def processRound (acc : List DAcc × List TAcc) (results : List SRes) :
    List DAcc × List TAcc :=
  results.foldl (fun a r => (addDriverPoints a.1 r, addTeamPoints a.2 r)) acc

/-- Lines 424-455: iterate rounds `1..latest` in order, skipping any
round whose load (or result iteration) raises. -/
def accumulateRounds (prov : Nat → Option (List SRes)) (latest : Nat) :
    List DAcc × List TAcc :=
  (List.range' 1 latest).foldl
    (fun acc rnd =>
      match prov rnd with
      | none => acc
      | some rs => processRound acc rs)
    ([], [])

/-- The points-descending preorder used by
`sorted(..., key=lambda x: x['points'], reverse=True)`.  Python's sort
is stable and `reverse=True` does not reorder ties, which is exactly
insertion sort under this relation. -/
def byPointsDesc (pts : α → ℚ) : α → α → Prop :=
  fun a b => pts b ≤ pts a

instance (pts : α → ℚ) : DecidableRel (byPointsDesc pts) :=
  fun a b => inferInstanceAs (Decidable (pts b ≤ pts a))

instance (pts : α → ℚ) : IsTotal α (byPointsDesc pts) :=
  ⟨fun a b => le_total (pts b) (pts a)⟩

instance (pts : α → ℚ) : IsTrans α (byPointsDesc pts) :=
  ⟨fun _ _ _ h₁ h₂ => le_trans h₂ h₁⟩

/-- Lines 460-464: 1-based position assignment by enumeration; the
position is paired with the entry. -/
def rank (l : List α) : List (α × Nat) :=
  l.enum.map (fun ie => (ie.2, ie.1 + 1))

/-- The standings payload (lines 466-472). -/
structure StandingsOut : Type where
  last_race : Nat
  driver_standings : List (DAcc × Nat)
  team_standings : List (TAcc × Nat)
deriving DecidableEq, Repr

/-- The successful branch of `get_standings`: accumulate rounds
`1..latest`, stable-sort both maps by points descending, assign
positions, and report `latest` as `last_race`. -/
def standingsPipeline (latest : Nat) (prov : Nat → Option (List SRes)) : StandingsOut :=
  let acc := accumulateRounds prov latest
  { last_race := latest
    driver_standings := rank (List.insertionSort (byPointsDesc DAcc.points) acc.1)
    team_standings := rank (List.insertionSort (byPointsDesc TAcc.points) acc.2) }

/-- Lines 408-472: filter the schedule to dated-before-now rounds, fail
with a 404 (`none`) when there is none, otherwise take the round number
of the last completed schedule row as `latest_round` and run the
aggregation. -/
def get_standings (sched : List (Nat × Bool)) (prov : Nat → Option (List SRes)) :
    Option StandingsOut :=
  match (sched.filter (fun e => e.2)).getLast? with
  | none => none
  | some last => some (standingsPipeline last.1 prov)

/-- Modelled from the spec (§8 "Partial-round resilience" / claim C1
wording): the highest round among `1..latest` whose race session loaded
successfully (`0` when none did). -/
def highestSuccessfulRound (prov : Nat → Option (List SRes)) (latest : Nat) : Nat :=
  ((List.range' 1 latest).filter (fun r => (prov r).isSome)).foldr max 0

/-! ## Concrete fixtures used by the claim theorems and witnesses -/

/-- A distinguishable telemetry point (distance `k`). -/
def c9Point (k : Nat) : TelemetryPoint :=
  ⟨some k, none, none, false, none, none, 0⟩

/-- A 101-point telemetry trace with distances `0..100`. -/
def c9Trace : List TelemetryPoint :=
  (List.range 101).map c9Point

/-! ## C9 : telemetry sampling -/

/-- Index law for the skip counter: `sliceAux s k l` holds the input's
elements at indices `k, k + s, k + 2s, ...`. -/
theorem sliceAux_getElem? (s : Nat) (hs : 1 ≤ s) :
    ∀ (l : List α) (k i : Nat), (sliceAux s k l)[i]? = l[k + i * s]? := by
  intro l
  induction l with
  | nil => intro k i; simp [sliceAux]
  | cons x xs ih =>
    intro k i
    cases k with
    | zero =>
      cases i with
      | zero => simp [sliceAux]
      | succ i =>
        rw [sliceAux, List.getElem?_cons_succ, ih (s - 1) i]
        have h : 0 + (i + 1) * s = ((s - 1) + i * s) + 1 := by
          rw [Nat.add_mul, Nat.one_mul]
          omega
        rw [h, List.getElem?_cons_succ]
    | succ k =>
      rw [sliceAux, ih k i]
      have h : (k + 1) + i * s = (k + i * s) + 1 := by omega
      rw [h, List.getElem?_cons_succ]

/-- Every `s`-th element, as an index law: the `i`-th sampled point is
the input's point at index `i * s`. -/
theorem sampleEvery_getElem? (s : Nat) (hs : 1 ≤ s) (i : Nat) (l : List α) :
    (sampleEvery s l)[i]? = l[i * s]? := by
  rw [sampleEvery, sliceAux_getElem? s hs l 0 i, Nat.zero_add]

/-- C9: sampling a trace with stride `s ≥ 1` returns exactly the points
at indices `0, s, 2s, ...` of the input, in original order; the source's
call site fixes `s = 10`; a 101-point trace sampled with stride 10
yields exactly the 11 points at indices `0, 10, ..., 100`; an empty
trace yields an empty sequence. -/
theorem telemetry_sampling_stride :
    (∀ (l : List TelemetryPoint) (s : Nat), 1 ≤ s →
        ∀ i : Nat, (sampleEvery s l)[i]? = l[i * s]?)
    ∧ get_telemetry_sampled c9Trace = (List.range 11).map (fun k => c9Point (10 * k))
    ∧ get_telemetry_sampled [] = [] := by
  refine ⟨fun l s hs i => sampleEvery_getElem? s hs i l, by decide, rfl⟩

/-- C9 witness: the index law evaluated at a concrete trace, stride and
index. -/
theorem telemetry_sampling_stride_witness :
    1 ≤ 10 ∧ (sampleEvery 10 c9Trace)[3]? = c9Trace[30]? :=
  ⟨by decide, telemetry_sampling_stride.1 c9Trace 10 (by decide) 3⟩

/-! ## C5 / C6 : cache idempotence and failure pass-through -/

/-- A hit on a singleton cache returns the stored record without a
provider call and leaves the state unchanged. -/
theorem get_cached_session_hit (prov : SessionKey → Nat → Except LoadErr α)
    (k : SessionKey) (v : α) (c : Nat) :
    get_cached_session prov k ⟨[(k, v)], c⟩ = (.ok v, ⟨[(k, v)], c⟩) := by
  simp [get_cached_session, lookupEntry, removeEntry]

/-- Iterating the getter from a singleton cache only replays the stored
record. -/
theorem runSeq_steady (prov : SessionKey → Nat → Except LoadErr α)
    (k : SessionKey) (v : α) (c : Nat) (n : Nat) :
    runSeq prov k n ⟨[(k, v)], c⟩ = (List.replicate n (.ok v), ⟨[(k, v)], c⟩) := by
  induction n with
  | zero => simp [runSeq]
  | succ n ih => simp [runSeq, get_cached_session_hit, ih, List.replicate_succ]

/-- C5: starting from an empty cache, `N ≥ 2` sequential calls for the
same key invoke the provider exactly once (on the first call), store the
result under the exact triple, and all `N` calls return that same
record. -/
theorem cache_single_load_idempotent {α : Type}
    (prov : SessionKey → Nat → Except LoadErr α) (k : SessionKey) (v : α)
    (N : Nat) (hN : 2 ≤ N) (hok : prov k 0 = .ok v) :
    (runSeq prov k N ⟨[], 0⟩).1 = List.replicate N (.ok v)
    ∧ (runSeq prov k N ⟨[], 0⟩).2.calls = 1
    ∧ lookupEntry k (runSeq prov k N ⟨[], 0⟩).2.entries = some v := by
  obtain ⟨n, rfl⟩ : ∃ n, N = n + 1 := ⟨N - 1, by omega⟩
  have hfirst : get_cached_session prov k ⟨[], 0⟩ = (.ok v, ⟨[(k, v)], 1⟩) := by
    simp [get_cached_session, lookupEntry, hok]
  simp [runSeq, hfirst, runSeq_steady, lookupEntry, List.replicate_succ]

/-- C5 witness: three sequential calls against a constant provider. -/
theorem cache_single_load_idempotent_witness :
    2 ≤ 3 ∧ (runSeq (fun _ _ => (Except.ok 42 : Except LoadErr Nat))
        ⟨2023, 1, "R"⟩ 3 ⟨[], 0⟩).1 = List.replicate 3 (Except.ok 42) :=
  ⟨by decide, (cache_single_load_idempotent _ _ 42 3 (by decide) rfl).1⟩

/-- C6: when the provider fails for a key, the getter returns the typed
error, caches nothing for that key, and a subsequent call invokes the
provider again (with the next invocation index) and succeeds if the
provider now does. -/
theorem cache_failure_not_cached {α : Type}
    (prov : SessionKey → Nat → Except LoadErr α) (k : SessionKey) (e : LoadErr)
    (he : prov k 0 = .error e) :
    (e = .sessionNotFound ∨ e = .sessionLoadFailed)
    ∧ get_cached_session prov k ⟨[], 0⟩ = (.error e, ⟨[], 1⟩)
    ∧ (∀ v : α, prov k 1 = .ok v →
        get_cached_session prov k ⟨[], 1⟩ = (.ok v, ⟨[(k, v)], 2⟩)) := by
  refine ⟨by cases e <;> simp, ?_, ?_⟩
  · simp [get_cached_session, lookupEntry, he]
  · intro v hv
    simp [get_cached_session, lookupEntry, hv]

/-- A provider whose first invocation fails transiently and whose second
succeeds. -/
def c6Prov : SessionKey → Nat → Except LoadErr Nat :=
  fun _ n => if n = 0 then .error .sessionLoadFailed else .ok 7

/-- C6 witness: the retry after an uncached failure reaches the provider
again and succeeds. -/
theorem cache_failure_not_cached_witness :
    get_cached_session c6Prov ⟨2023, 1, "R"⟩ (⟨[], 1⟩ : CacheState Nat)
      = (.ok 7, ⟨[(⟨2023, 1, "R"⟩, 7)], 2⟩) :=
  (cache_failure_not_cached c6Prov ⟨2023, 1, "R"⟩ .sessionLoadFailed rfl).2.2 7 rfl

/-! ## C3 / C10 : pit-stop detection -/

/-- The threaded walk agrees with pairwise emission, up to the emission
of the head lap against the incoming `prev` value. -/
theorem detectWalk_eq_pairs (d : String) :
    ∀ (l : List DriverLap) (c : CompoundVal),
      detectWalk d l c =
        (match l with
         | [] => []
         | y :: _ =>
           if isNotNone c && pyNe y.compound c then
             [⟨d, y.lapNumber, c, y.compound, none⟩]
           else []) ++ pitStopPairs d l := by
  intro l
  induction l with
  | nil => intro c; simp [detectWalk, pitStopPairs]
  | cons y ys ih =>
    intro c
    cases ys with
    | nil => simp [detectWalk, pitStopPairs]
    | cons z zs =>
      rw [detectWalk, ih y.compound]
      simp [pitStopPairs, List.append_assoc]

/-- The detector equals the pairwise spec: the initial `prev` is Python
`None`, so the sorted head never emits. -/
theorem detectPitStops_eq_spec (d : String) (laps : List DriverLap) :
    detectPitStops d laps = pitStopsSpec d laps := by
  unfold detectPitStops pitStopsSpec
  rw [detectWalk_eq_pairs]
  cases sortLaps laps with
  | nil => rfl
  | cons y ys => simp [isNotNone]

/-- A lap sequence of constant string compound yields no events. -/
theorem pitStopPairs_const (d : String) (c : String) :
    ∀ l : List DriverLap, (∀ x ∈ l, x.compound = CompoundVal.str c) →
      pitStopPairs d l = []
  | [], _ => rfl
  | [_], _ => rfl
  | x :: y :: rest, h => by
    have hx := h x (by simp)
    have hy := h y (by simp)
    have hrest : ∀ z ∈ y :: rest, z.compound = CompoundVal.str c := by
      intro z hz
      exact h z (by simp at hz ⊢; tauto)
    simp [pitStopPairs, hx, hy, pyNe, pitStopPairs_const d c (y :: rest) hrest]

/-- The five laps of the spec's pit-stop example. -/
def c3Laps : List DriverLap :=
  [⟨1, .str "SOFT", some 90⟩, ⟨2, .str "SOFT", some 91⟩, ⟨3, .str "MEDIUM", some 92⟩,
   ⟨4, .str "MEDIUM", some 93⟩, ⟨5, .str "HARD", some 94⟩]

/-- Three laps on a constant compound. -/
def c3ConstLaps : List DriverLap :=
  [⟨1, .str "SOFT", some 90⟩, ⟨2, .str "SOFT", some 91⟩, ⟨3, .str "SOFT", some 92⟩]

/-- C3: pit-stop detection sorts by lap number and then emits exactly
one event per lap whose compound differs (Python `!=`) from the previous
lap's compound when that previous compound is not `None`; the first lap
never emits; the spec's five-lap example yields exactly the two
transitions at laps 3 and 5; a constant-compound sequence yields no
events. -/
theorem pitstop_detection_characterization :
    (∀ (d : String) (laps : List DriverLap), detectPitStops d laps = pitStopsSpec d laps)
    ∧ (∀ (d : String) (laps : List DriverLap) (c : String),
        (∀ x ∈ laps, x.compound = CompoundVal.str c) → detectPitStops d laps = [])
    ∧ detectPitStops "X" c3Laps =
        [⟨"X", 3, .str "SOFT", .str "MEDIUM", none⟩,
         ⟨"X", 5, .str "MEDIUM", .str "HARD", none⟩] := by
  refine ⟨detectPitStops_eq_spec, ?_, by decide⟩
  intro d laps c h
  rw [detectPitStops_eq_spec]
  unfold pitStopsSpec
  apply pitStopPairs_const
  intro x hx
  exact h x ((List.mem_insertionSort _).mp hx)

/-- C3 witness: the constant-compound law at a concrete sequence. -/
theorem pitstop_detection_characterization_witness :
    detectPitStops "Y" c3ConstLaps = [] :=
  pitstop_detection_characterization.2.1 "Y" c3ConstLaps "SOFT" (by decide)

/-- Consecutive positions of the list yield a pairwise event whenever
the guard holds. -/
theorem mem_pitStopPairs_of_consec (d : String) :
    ∀ (l : List DriverLap) (i : Nat) (x y : DriverLap),
      l[i]? = some x → l[i + 1]? = some y →
      (isNotNone x.compound && pyNe y.compound x.compound) = true →
      (⟨d, y.lapNumber, x.compound, y.compound, none⟩ : PitStopEvent) ∈ pitStopPairs d l := by
  intro l
  induction l with
  | nil => intro i x y hx; simp at hx
  | cons a t ih =>
    intro i x y hx hy hg
    cases i with
    | zero =>
      rw [List.getElem?_cons_zero] at hx
      injection hx with hx
      subst hx
      rw [List.getElem?_cons_succ] at hy
      cases t with
      | nil => simp at hy
      | cons b u =>
        rw [List.getElem?_cons_zero] at hy
        injection hy with hy
        subst hy
        rw [pitStopPairs, hg]
        simp
    | succ i =>
      rw [List.getElem?_cons_succ] at hx hy
      have hmem := ih i x y hx hy hg
      cases t with
      | nil => simp at hx
      | cons b u =>
        rw [pitStopPairs]
        exact List.mem_append_right _ hmem

/-- Two consecutive laps with a missing compound. -/
def c10Laps : List DriverLap :=
  [⟨1, .nan, some 90⟩, ⟨2, .nan, some 91⟩]

/-- C10: missing compounds enter the pit-stop walk un-normalized (the
session projection maps them to `"UNKNOWN"`, the detector does not), a
NaN compound compares unequal to every value including another NaN, and
hence inside a run of consecutive missing-compound laps every non-first
lap emits an event whose compounds are both the missing value. -/
theorem pitstop_nan_unnormalized :
    (∀ c : CompoundVal, pyNe .nan c = true ∧ pyNe c .nan = true)
    ∧ (∀ (sch : LapSchema) (r : LapRow), sch.hasCompound = true → r.compound = none →
        (mkLapOut sch r).compound = some "UNKNOWN")
    ∧ (∀ (d : String) (laps : List DriverLap) (i : Nat) (x y : DriverLap),
        (sortLaps laps)[i]? = some x → (sortLaps laps)[i + 1]? = some y →
        x.compound = .nan → y.compound = .nan →
        (⟨d, y.lapNumber, .nan, .nan, none⟩ : PitStopEvent) ∈ detectPitStops d laps) := by
  refine ⟨fun c => ⟨by cases c <;> rfl, by cases c <;> rfl⟩, ?_, ?_⟩
  · intro sch r hc hmiss
    simp [mkLapOut, hc, hmiss]
  · intro d laps i x y hx hy hxc hyc
    rw [detectPitStops_eq_spec]
    unfold pitStopsSpec
    have := mem_pitStopPairs_of_consec d (sortLaps laps) i x y hx hy
      (by rw [hxc, hyc]; rfl)
    rwa [hxc, hyc] at this

/-- C10 witness: the NaN-run law at two concrete missing-compound
laps. -/
theorem pitstop_nan_unnormalized_witness :
    (⟨"Z", 2, .nan, .nan, none⟩ : PitStopEvent) ∈ detectPitStops "Z" c10Laps :=
  pitstop_nan_unnormalized.2.2 "Z" c10Laps 0 ⟨1, .nan, some 90⟩ ⟨2, .nan, some 91⟩
    (by decide) (by decide) rfl rfl

/-! ## C2 : null lap times -/

/-- Forget the lap-time cell of a lap row. -/
def eraseLapTime (l : DriverLap) : DriverLap :=
  { l with lapTime := none }

/-- Sorting by lap number commutes with forgetting lap times. -/
theorem sortLaps_map_eraseLapTime (laps : List DriverLap) :
    sortLaps (laps.map eraseLapTime) = (sortLaps laps).map eraseLapTime := by
  unfold sortLaps
  exact (List.map_insertionSort _ _ eraseLapTime laps (fun a _ b _ => Iff.rfl)).symm

/-- The walk never reads lap times. -/
theorem detectWalk_map_eraseLapTime (d : String) :
    ∀ (l : List DriverLap) (c : CompoundVal),
      detectWalk d (l.map eraseLapTime) c = detectWalk d l c
  | [], _ => rfl
  | x :: xs, c => by
    simp only [List.map_cons, detectWalk, eraseLapTime,
      detectWalk_map_eraseLapTime d xs]

/-- C2 (amended): a lap whose lap time is null produces no entry in the
session projection (when the `LapTime` column exists every emitted entry
carries a non-null lap time, and the emitted entries are exactly the
non-null-lap-time rows), but pit-stop detection does not filter on lap
time at all — it is invariant under erasing every lap time, so such a
lap participates in compound-change events like any other. -/
theorem null_laptime_excluded_from_projection_only :
    (∀ f : LapFrame, f.schema.hasLapTime = true →
        (∀ o ∈ get_session_laps f, o.lap_time.isSome = true)
        ∧ (get_session_laps f).length
            = (f.rows.filter (fun r => r.lapTime.isSome)).length)
    ∧ (∀ (d : String) (laps : List DriverLap),
        detectPitStops d (laps.map eraseLapTime) = detectPitStops d laps) := by
  constructor
  · intro f hlt
    constructor
    · intro o ho
      unfold get_session_laps at ho
      rw [hlt] at ho
      simp only [if_true, List.mem_map] at ho
      obtain ⟨r, hr, rfl⟩ := ho
      rw [List.mem_filter] at hr
      simp [mkLapOut, hlt, hr.2]
    · unfold get_session_laps
      rw [hlt]
      simp
  · intro d laps
    unfold detectPitStops
    rw [sortLaps_map_eraseLapTime, detectWalk_map_eraseLapTime]

/-- A two-lap sequence whose second lap (a compound change) has a null
lap time. -/
def c2Laps : List DriverLap :=
  [⟨1, .str "SOFT", some 90⟩, ⟨2, .str "MEDIUM", none⟩]

/-- C2 counterexample: the lap at index 1 has a null lap time, yet
pit-stop detection emits an event for it — a null-lap-time lap is not
excluded from the pit-stop projection. -/
theorem null_laptime_lap_emits_pitstop :
    c2Laps[1]?.map DriverLap.lapTime = some none
    ∧ detectPitStops "X" c2Laps = [⟨"X", 2, .str "SOFT", .str "MEDIUM", none⟩] := by
  decide

/-- A one-lap frame with every column present, used to instantiate the
projection half of C2. -/
def c2Frame : LapFrame :=
  { schema := ⟨true, true, true, true, true, true⟩
    rows := [⟨some "VER", some 1, some 90, some 1, some "SOFT", some "Red Bull Racing"⟩,
             ⟨some "VER", some 2, none, some 1, some "MEDIUM", some "Red Bull Racing"⟩] }

/-- C2 witness: the projection half evaluated on a concrete frame. -/
theorem null_laptime_excluded_witness :
    (∀ o ∈ get_session_laps c2Frame, o.lap_time.isSome = true)
    ∧ (get_session_laps c2Frame).length
        = (c2Frame.rows.filter (fun r => r.lapTime.isSome)).length :=
  null_laptime_excluded_from_projection_only.1 c2Frame rfl

/-! ## C8 : projection of absent / null columns -/

/-- A result schema with every needed column absent. -/
def c8NoCols : ResultSchema := ⟨false, false, false, false, false, false⟩

/-- A result row carrying real values (which absent columns cannot
surface). -/
def c8Row : ResultRow :=
  ⟨some "LEC", some "Charles Leclerc", some "Ferrari", some 1, some 25, some "Finished"⟩

/-- C8 counterexample: with the upstream columns absent, the projected
result record still carries the fields — `team` and `status` are
defaulted to `"Unknown"` and `points` to `0` — instead of the fields
being omitted; the stored `"Ferrari"` row value is ignored. -/
theorem absent_columns_defaulted_not_omitted :
    (mkResultOut c8NoCols c8Row).team = some "Unknown"
    ∧ (mkResultOut c8NoCols c8Row).status = some "Unknown"
    ∧ (mkResultOut c8NoCols c8Row).points = 0
    ∧ c8Row.teamName = some "Ferrari"
    ∧ (mkResultOut c8NoCols c8Row).team ≠ c8Row.teamName := by
  decide

/-- C8 (amended): in the lap projection an absent optional column
(`LapTime`, `Position`, `Compound`, `Team`) omits the output key while
an absent `Driver` column yields a null value; a present-but-null
compound is defaulted to `"UNKNOWN"`, a null lap position is omitted
(laps) or null (results), and null or absent points default to `0`; in
the result projection absent columns are defaulted (`team`/`status` to
`"Unknown"`, `driver` to null) rather than omitted.  Projection is a
total function — absent columns never fail. -/
theorem projection_missing_field_tolerance :
    (∀ (sch : LapSchema) (r : LapRow),
      (sch.hasLapTime = false → (mkLapOut sch r).lap_time = none)
      ∧ (sch.hasPosition = false → (mkLapOut sch r).position = none)
      ∧ (sch.hasCompound = false → (mkLapOut sch r).compound = none)
      ∧ (sch.hasTeam = false → (mkLapOut sch r).team = none)
      ∧ (sch.hasDriver = false → (mkLapOut sch r).driver = none)
      ∧ (sch.hasCompound = true → r.compound = none →
          (mkLapOut sch r).compound = some "UNKNOWN")
      ∧ (r.position = none → (mkLapOut sch r).position = none))
    ∧ (∀ (sch : ResultSchema) (r : ResultRow),
      (r.points = none → (mkResultOut sch r).points = 0)
      ∧ (sch.hasPoints = false → (mkResultOut sch r).points = 0)
      ∧ (r.position = none → (mkResultOut sch r).position = none)
      ∧ (sch.hasTeamName = false → (mkResultOut sch r).team = some "Unknown")
      ∧ (sch.hasStatus = false → (mkResultOut sch r).status = some "Unknown")
      ∧ (sch.hasAbbreviation = false → (mkResultOut sch r).driver = none)) := by
  constructor
  · intro sch r
    refine ⟨fun h => ?_, fun h => ?_, fun h => ?_, fun h => ?_, fun h => ?_,
      fun h hm => ?_, fun h => ?_⟩
    · simp [mkLapOut, h]
    · simp [mkLapOut, h]
    · simp [mkLapOut, h]
    · simp [mkLapOut, h]
    · simp [mkLapOut, h]
    · simp [mkLapOut, h, hm]
    · simp [mkLapOut, h]
  · intro sch r
    refine ⟨fun h => ?_, fun h => ?_, fun h => ?_, fun h => ?_, fun h => ?_,
      fun h => ?_⟩
    · simp [mkResultOut, h]
    · simp [mkResultOut, h]
    · simp [mkResultOut, h]
    · simp [mkResultOut, h]
    · simp [mkResultOut, h]
    · simp [mkResultOut, h]

/-- A lap schema missing the optional columns but keeping `Driver` and
`LapNumber`. -/
def c8LapSchema : LapSchema := ⟨true, true, false, false, false, false⟩

/-- A lap row for the C8 witness. -/
def c8LapRow : LapRow := ⟨some "VER", some 7, some 90, some 2, some "SOFT", some "Red Bull Racing"⟩

/-- C8 witness: the lap-side omission laws evaluated on a concrete
schema and row. -/
theorem projection_missing_field_tolerance_witness :
    (mkLapOut c8LapSchema c8LapRow).lap_time = none
    ∧ (mkResultOut c8NoCols c8Row).points = 0 :=
  ⟨(projection_missing_field_tolerance.1 c8LapSchema c8LapRow).1 rfl,
   (projection_missing_field_tolerance.2 c8NoCols c8Row).2.1 rfl⟩

/-! ## C1 : `last_race` versus the highest successfully processed round -/

/-- Skipping failed rounds is the same as folding over the successfully
loaded rounds only. -/
theorem foldl_skip_eq_filterMap (prov : Nat → Option (List SRes)) :
    ∀ (l : List Nat) (acc : List DAcc × List TAcc),
      l.foldl (fun a rnd =>
          match prov rnd with
          | none => a
          | some rs => processRound a rs) acc
        = (l.filterMap prov).foldl processRound acc
  | [], _ => rfl
  | r :: t, acc => by
    cases h : prov r <;>
      simp [List.filterMap_cons, h, foldl_skip_eq_filterMap prov t]

/-- C1 (amended): `last_race` is the round number of the last completed
schedule row — the latest scheduled completed round — regardless of
which round loads succeed; the accumulation itself does skip failed
rounds, folding exactly over the successfully loaded ones. -/
theorem last_race_is_latest_scheduled :
    (∀ (sched : List (Nat × Bool)) (prov : Nat → Option (List SRes)),
      (get_standings sched prov).map StandingsOut.last_race
        = ((sched.filter (fun e => e.2)).getLast?).map Prod.fst)
    ∧ (∀ (prov : Nat → Option (List SRes)) (latest : Nat),
      accumulateRounds prov latest
        = ((List.range' 1 latest).filterMap prov).foldl processRound ([], [])) := by
  constructor
  · intro sched prov
    unfold get_standings
    cases h : (sched.filter (fun e => e.2)).getLast? with
    | none => rfl
    | some last => simp [standingsPipeline]
  · intro prov latest
    unfold accumulateRounds
    exact foldl_skip_eq_filterMap prov (List.range' 1 latest) ([], [])

/-- A two-round schedule, both rounds dated before now. -/
def c1Sched : List (Nat × Bool) := [(1, true), (2, true)]

/-- A provider for which round 1 loads and round 2 fails. -/
def c1Prov : Nat → Option (List SRes) :=
  fun r => if r = 1 then some [⟨"ALO", "Fernando Alonso", "Aston Martin", some 25⟩] else none

/-- C1 counterexample: with round 2 failing to load, the highest
successfully processed round is 1, yet the output's `last_race` is 2 —
the latest scheduled completed round, unconditionally. -/
theorem last_race_not_highest_successful :
    (get_standings c1Sched c1Prov).map StandingsOut.last_race = some 2
    ∧ highestSuccessfulRound c1Prov 2 = 1
    ∧ (get_standings c1Sched c1Prov).map StandingsOut.last_race
        ≠ some (highestSuccessfulRound c1Prov 2) := by
  decide

/-! ## C4 : stable descending sort and 1-based ranks -/

/-- Ranking only pairs positions with entries: projecting the entries
back recovers the sorted list. -/
theorem rank_map_fst (l : List α) : (rank l).map Prod.fst = l := by
  unfold rank
  rw [List.map_map]
  exact List.enum_map_snd l

/-- The paired positions are exactly `1, 2, ..., length`. -/
theorem rank_map_snd (l : List α) : (rank l).map Prod.snd = List.range' 1 l.length := by
  unfold rank
  rw [List.map_map]
  have h : (Prod.snd ∘ fun ie : Nat × α => (ie.2, ie.1 + 1)) = ((fun i => i + 1) ∘ Prod.fst) := rfl
  rw [h, ← List.map_map, List.enum_map_fst, List.range'_eq_map_range]
  exact List.map_congr_left (fun i _ => Nat.add_comm i 1)

/-- Ranking preserves length. -/
theorem rank_length (l : List α) : (rank l).length = l.length := by
  simp [rank]

/-- Inserting an element whose points value is not `p` does not change
the sublist of points-`p` elements. -/
theorem filter_orderedInsert_pts (pts : α → ℚ) (p : ℚ) (a : α) :
    ∀ l : List α,
      (List.orderedInsert (byPointsDesc pts) a l).filter (fun x => decide (pts x = p))
        = if pts a = p then a :: l.filter (fun x => decide (pts x = p))
          else l.filter (fun x => decide (pts x = p))
  | [] => by
    by_cases hap : pts a = p <;> simp [List.orderedInsert, List.filter, hap]
  | b :: t => by
    by_cases hab : byPointsDesc pts a b
    · rw [List.orderedInsert, if_pos hab]
      by_cases hap : pts a = p <;> simp [List.filter_cons, hap]
    · rw [List.orderedInsert, if_neg hab, List.filter_cons, List.filter_cons,
        filter_orderedInsert_pts pts p a t]
      by_cases hbp : pts b = p
      · have hap : pts a ≠ p := by
          intro h
          exact hab (le_of_eq (hbp.trans h.symm))
        simp [hbp, hap]
      · simp [hbp]

/-- Stability at every points value: the stable descending sort keeps
equal-points entries in their original relative order. -/
theorem filter_insertionSort_pts (pts : α → ℚ) (p : ℚ) :
    ∀ l : List α,
      (List.insertionSort (byPointsDesc pts) l).filter (fun x => decide (pts x = p))
        = l.filter (fun x => decide (pts x = p))
  | [] => rfl
  | a :: t => by
    rw [List.insertionSort, filter_orderedInsert_pts,
      filter_insertionSort_pts pts p t, List.filter_cons]
    by_cases hap : pts a = p <;> simp [hap]

/-- The bundle of order-theoretic facts about the sort-then-rank stage,
generic in the points projection. -/
theorem rank_sort_props (pts : α → ℚ) (l : List α) :
    ((rank (List.insertionSort (byPointsDesc pts) l)).map Prod.fst).Perm l
    ∧ (rank (List.insertionSort (byPointsDesc pts) l)).Pairwise
        (fun a b => pts b.1 ≤ pts a.1)
    ∧ (∀ p : ℚ,
        ((rank (List.insertionSort (byPointsDesc pts) l)).map Prod.fst).filter
            (fun x => decide (pts x = p))
          = l.filter (fun x => decide (pts x = p)))
    ∧ (rank (List.insertionSort (byPointsDesc pts) l)).map Prod.snd
        = List.range' 1 (rank (List.insertionSort (byPointsDesc pts) l)).length := by
  refine ⟨?_, ?_, ?_, ?_⟩
  · rw [rank_map_fst]
    exact List.perm_insertionSort _ l
  · have hs := List.sorted_insertionSort (byPointsDesc pts) l
    rw [← rank_map_fst (List.insertionSort (byPointsDesc pts) l)] at hs
    exact (List.pairwise_map.mp hs)
  · intro p
    rw [rank_map_fst]
    exact filter_insertionSort_pts pts p l
  · rw [rank_map_snd, rank_length, List.length_insertionSort]

/-- The two-round tie-break fixture: driver A scores 25 then 18, driver
B scores 18 then 25. -/
def c4Sched : List (Nat × Bool) := [(1, true), (2, true)]

/-- Round results for the tie-break fixture. -/
def c4Prov : Nat → Option (List SRes) :=
  fun r =>
    if r = 1 then
      some [⟨"A", "Driver A", "Team A", some 25⟩, ⟨"B", "Driver B", "Team B", some 18⟩]
    else if r = 2 then
      some [⟨"A", "Driver A", "Team A", some 18⟩, ⟨"B", "Driver B", "Team B", some 25⟩]
    else none

/-- C4: both standings lists are a stable descending sort of the
accumulated totals — the entries are a permutation of the accumulation
map, points are non-increasing, equal-points entries keep their
first-encounter order — and positions are the 1-based indices
`1, 2, ...`; on the two-round fixture A and B both total 43 and A, seen
first in round order, ranks ahead. -/
theorem standings_sorted_stable_ranked :
    (∀ (latest : Nat) (prov : Nat → Option (List SRes)),
      (((standingsPipeline latest prov).driver_standings.map Prod.fst).Perm
          (accumulateRounds prov latest).1
        ∧ (standingsPipeline latest prov).driver_standings.Pairwise
            (fun a b => b.1.points ≤ a.1.points)
        ∧ (∀ p : ℚ,
            ((standingsPipeline latest prov).driver_standings.map Prod.fst).filter
                (fun e => decide (e.points = p))
              = (accumulateRounds prov latest).1.filter (fun e => decide (e.points = p)))
        ∧ (standingsPipeline latest prov).driver_standings.map Prod.snd
            = List.range' 1 (standingsPipeline latest prov).driver_standings.length)
      ∧ (((standingsPipeline latest prov).team_standings.map Prod.fst).Perm
          (accumulateRounds prov latest).2
        ∧ (standingsPipeline latest prov).team_standings.Pairwise
            (fun a b => b.1.points ≤ a.1.points)
        ∧ (∀ p : ℚ,
            ((standingsPipeline latest prov).team_standings.map Prod.fst).filter
                (fun e => decide (e.points = p))
              = (accumulateRounds prov latest).2.filter (fun e => decide (e.points = p)))
        ∧ (standingsPipeline latest prov).team_standings.map Prod.snd
            = List.range' 1 (standingsPipeline latest prov).team_standings.length))
    ∧ (get_standings c4Sched c4Prov).map
        (fun o => o.driver_standings.map (fun e => (e.1.driver, e.1.points, e.2)))
        = some [("A", 43, 1), ("B", 43, 2)] := by
  constructor
  · intro latest prov
    exact ⟨rank_sort_props DAcc.points (accumulateRounds prov latest).1,
           rank_sort_props TAcc.points (accumulateRounds prov latest).2⟩
  · have hr : List.range' 1 2 = [1, 2] := rfl
    norm_num +decide [get_standings, c4Sched, c4Prov, standingsPipeline, accumulateRounds,
      hr, processRound, addDriverPoints, addTeamPoints, rank, byPointsDesc,
      teamColorOf, TEAM_COLORS, List.orderedInsert, List.filter, List.enum,
      List.enumFrom]
